import Mathlib

/-!
Shallow embedding of the tycho-indexer core (extractor runtime, normalization
layer, ambient gateway, fan-out subscription table, RPC version parsing and
handlers) together with theorems checking the specification's claims.

Conventions of the embedding:
* EVM machine words (`H160`, `H256`, `U256`) are modelled as `Nat`; the source
  only compares them for equality and never performs arithmetic on them.
* `Vec<u8>` byte strings are `List Nat`; `NaiveDateTime` is `Nat` seconds.
* Rust `HashMap`s are association lists with first-match lookup and
  replace-or-append insertion (`alLookup` / `alInsert`), mirroring the map's
  keyed-overwrite semantics.
* Fallible Rust functions return `Except`; functions that mutate `&mut self`
  return the new value of `self` (paired with `Option`-al error where the source
  can fail after mutating).
-/

namespace Tycho

abbrev H160 := Nat
abbrev H256 := Nat
abbrev U256 := Nat
abbrev Timestamp := Nat
abbrev Bytes := List Nat

/-- Association-list lookup, first match wins (model of `HashMap::get`). -/
def alLookup {α β : Type} [DecidableEq α] (k : α) : List (α × β) → Option β
  | [] => none
  | p :: rest => if p.1 = k then some p.2 else alLookup k rest

/-- Association-list insert, replacing an existing binding in place and
appending otherwise (model of `HashMap::insert`). -/
def alInsert {α β : Type} [DecidableEq α] (k : α) (v : β) :
    List (α × β) → List (α × β)
  | [] => [(k, v)]
  | p :: rest => if p.1 = k then (k, v) :: rest else p :: alInsert k v rest

/-- Association-list removal of the first binding for a key (model of
`HashMap::remove`). -/
def alRemove {α β : Type} [DecidableEq α] (k : α) :
    List (α × β) → List (α × β)
  | [] => []
  | p :: rest => if p.1 = k then rest else p :: alRemove k rest

/-- Decidable equality for `Except`, used to evaluate gateway results on
concrete inputs. -/
instance exceptDecidableEq {ε α : Type} [DecidableEq ε] [DecidableEq α] :
    DecidableEq (Except ε α) := fun x y =>
  match x, y with
  | .ok a, .ok b => if h : a = b then .isTrue (by rw [h]) else .isFalse (by simp [h])
  | .ok _, .error _ => .isFalse (by simp)
  | .error _, .ok _ => .isFalse (by simp)
  | .error e, .error f => if h : e = f then .isTrue (by rw [h]) else .isFalse (by simp [h])

/-- `models.rs`: the chain enum. -/
inductive Chain
  | Ethereum
  | Starknet
  | ZkSync
deriving DecidableEq

/-- `storage/mod.rs`: change type attached to contract deltas. -/
inductive ChangeType
  | Update
  | Deletion
  | Creation
deriving DecidableEq

/-- `storage/mod.rs`: the storage failure taxonomy. -/
inductive StorageError
  | NotFound (entity id : String)
  | DuplicateEntry (entity id : String)
  | NoRelatedEntity (entity forEntity id : String)
  | DecodeError (msg : String)
  | Unexpected (msg : String)
  | Unsupported (msg : String)
  | WriteCacheGoneAway
deriving DecidableEq

/-- The extractor error enum. Its defining module (`extractor/mod.rs`) is not
among the sources; the constructors are reconstructed from their uses in
`extractor/evm/mod.rs`, `extractor/evm/ambient.rs`, `extractor/runner.rs` and
the spec's error taxonomy (§7). `Storage` models the `From<StorageError>`
conversion applied by the `?` operator in the handlers. -/
inductive ExtractionError
  | DecodeError (msg : String)
  | Empty
  | Unknown (msg : String)
  | Setup (msg : String)
  | SubstreamsError (msg : String)
  | Storage (e : StorageError)
deriving DecidableEq

/-- `extractor/evm/mod.rs`: `Transaction`. The Rust fields `from` and `to`
are named `sender` and `recipient` here because `from` and `to` are reserved
tokens in Lean. -/
structure Transaction where
  hash : H256
  block_hash : H256
  sender : H160
  recipient : Option H160
  index : Nat
deriving DecidableEq

/-- `extractor/evm/mod.rs`: `Block`. -/
structure Block where
  number : Nat
  hash : H256
  parent_hash : H256
  chain : Chain
  ts : Timestamp
deriving DecidableEq

/-- `extractor/evm/mod.rs`: `AccountUpdate`. Slots are an association list
modelling `HashMap<U256, U256>`. -/
structure AccountUpdate where
  address : H160
  chain : Chain
  slots : List (U256 × U256)
  balance : Option U256
  code : Option Bytes
  change : ChangeType
deriving DecidableEq

/-- Model of `HashMap::extend`: every binding of `other` is inserted into
`self`, overwriting existing bindings for the same key. -/
def slotsExtend (self other : List (U256 × U256)) : List (U256 × U256) :=
  other.foldl (fun acc p => alInsert p.1 p.2 acc) self

/-- `AccountUpdate::is_update`. -/
def AccountUpdate.is_update (self : AccountUpdate) : Bool :=
  self.change = ChangeType.Update

/-- `AccountUpdate::is_creation`. -/
def AccountUpdate.is_creation (self : AccountUpdate) : Bool :=
  self.change = ChangeType.Creation

/-- `AccountUpdate::merge`: keys of `other` take precedence in the storage
map, `other`'s balance/code overwrite when non-null, the change type of
`self` is kept. Fails with `Unknown` when the addresses differ. -/
def AccountUpdate.merge (self other : AccountUpdate) :
    Except ExtractionError AccountUpdate :=
  if self.address ≠ other.address then
    .error (.Unknown
      ("Can't merge AccountUpdates from differing identities; Expected "
        ++ toString self.address ++ ", got " ++ toString other.address))
  else
    .ok { self with
      slots := slotsExtend self.slots other.slots
      balance := other.balance.or self.balance
      code := other.code.or self.code }

/-- `extractor/evm/mod.rs`: `AccountUpdateWithTx`. -/
structure AccountUpdateWithTx where
  update : AccountUpdate
  tx : Transaction
deriving DecidableEq

/-- `AccountUpdateWithTx::merge`. The result is the final value of `self`
(the source mutates `&mut self`) paired with the error, if any: the
transaction checks happen before any mutation, then `self.tx` is assigned
`other.tx` and the inner `AccountUpdate::merge` runs. -/
def AccountUpdateWithTx.merge (self other : AccountUpdateWithTx) :
    AccountUpdateWithTx × Option ExtractionError :=
  if self.tx.block_hash ≠ other.tx.block_hash then
    (self, some (.Unknown ("Can't merge AccountUpdates from different blocks: "
      ++ toString self.tx.block_hash ++ " != " ++ toString other.tx.block_hash)))
  else if self.tx.hash = other.tx.hash then
    (self, some (.Unknown ("Can't merge AccountUpdates from the same transaction: "
      ++ toString self.tx.hash)))
  else if other.tx.index < self.tx.index then
    (self, some (.Unknown ("Can't merge AccountUpdates with lower transaction index: "
      ++ toString self.tx.index ++ " > " ++ toString other.tx.index)))
  else
    match self.update.merge other.update with
    | .error e => ({ self with tx := other.tx }, some e)
    | .ok u => ({ update := u, tx := other.tx }, none)

/-- `extractor/evm/mod.rs`: `BlockStateChanges`. The `new_pools` field
(always constructed empty by `try_from_message` and never read by the
functions under study) is not modelled. -/
structure BlockStateChanges where
  extractor : String
  chain : Chain
  block : Block
  tx_updates : List AccountUpdateWithTx
deriving DecidableEq

/-- `extractor/evm/mod.rs`: `BlockAccountChanges`. The `new_components` and
`tvl_change` fields (constructed empty by `BlockAccountChanges::new` on the
paths under study) are not modelled. The account-update map is an
association list keyed by address. -/
structure BlockAccountChanges where
  extractor : String
  chain : Chain
  block : Block
  account_updates : List (H160 × AccountUpdate)
deriving DecidableEq

/-- `BlockAccountChanges::new`. -/
def BlockAccountChanges.new (extractor : String) (chain : Chain) (block : Block)
    (account_updates : List (H160 × AccountUpdate)) : BlockAccountChanges :=
  { extractor, chain, block, account_updates }

/-- One step of `BlockStateChanges::aggregate_updates`: the `HashMap::entry`
match — merge into an occupied entry, insert into a vacant one. -/
def aggStep (acc : List (H160 × AccountUpdateWithTx)) (update : AccountUpdateWithTx) :
    Except ExtractionError (List (H160 × AccountUpdateWithTx)) :=
  match alLookup update.update.address acc with
  | some existing =>
    match existing.merge update with
    | (merged, none) => .ok (alInsert update.update.address merged acc)
    | (_, some e) => .error e
  | none => .ok (alInsert update.update.address update acc)

/-- `BlockStateChanges::aggregate_updates`: fold the per-transaction updates
into one per-address update, then strip the transactions. -/
def BlockStateChanges.aggregate_updates (self : BlockStateChanges) :
    Except ExtractionError BlockAccountChanges := do
  let m ← self.tx_updates.foldlM aggStep []
  return BlockAccountChanges.new self.extractor self.chain self.block
    (m.map (fun p => (p.1, p.2.update)))

/-- The fold rule the spec states for per-block aggregation, written from the
spec's words: the slot value of the latest update that writes a key wins,
earlier-only keys keep their earlier values. -/
def latestSlotValue (us : List AccountUpdateWithTx) (k : U256) : Option U256 :=
  match us with
  | [] => none
  | u :: rest => (latestSlotValue rest k).or (alLookup k u.update.slots)

/-- Spec-side fold rule for the balance: the latest non-null balance, falling
back to earlier values. -/
def latestBalance (us : List AccountUpdateWithTx) : Option U256 :=
  match us with
  | [] => none
  | u :: rest => (latestBalance rest).or u.update.balance

/-- Spec-side fold rule for the code: the latest non-null code, falling back
to earlier values. -/
def latestCode (us : List AccountUpdateWithTx) : Option Bytes :=
  match us with
  | [] => none
  | u :: rest => (latestCode rest).or u.update.code

/-! ## Protobuf wire messages (`pb::tycho::evm::v1`) and their parsing -/

/-- Wire `Block` message. -/
structure PbBlock where
  hash : Bytes
  parent_hash : Bytes
  number : Nat
  ts : Nat
deriving DecidableEq

/-- Wire `Transaction` message (`from`/`to` renamed as in `Transaction`). -/
structure PbTransaction where
  hash : Bytes
  sender : Bytes
  recipient : Bytes
  index : Nat
deriving DecidableEq

/-- Wire `ContractSlot` message. -/
structure PbContractSlot where
  slot : Bytes
  value : Bytes
deriving DecidableEq

/-- Wire `ContractChange` message. The protobuf change-type tag is modelled
directly as `ChangeType`; the `Unspecified` tag (on which the source panics
in `From<substreams::ChangeType>`) is outside the model. -/
structure PbContractChange where
  address : Bytes
  balance : Bytes
  code : Bytes
  slots : List PbContractSlot
  change : ChangeType
deriving DecidableEq

/-- Wire `TransactionChanges` group. -/
structure PbTransactionChanges where
  tx : Option PbTransaction
  contract_changes : List PbContractChange
deriving DecidableEq

/-- Wire `BlockContractChanges` message. -/
structure PbBlockContractChanges where
  block : Option PbBlock
  changes : List PbTransactionChanges
deriving DecidableEq

/-- Big-endian interpretation of a byte string as a number. -/
def bytesToNat (bs : Bytes) : Nat :=
  bs.foldl (fun acc b => acc * 256 + b % 256) 0

/-- Modelled from the spec: `pad_and_parse_32bytes` (its file,
`extractor/evm/utils.rs`, is absent from the sources). Byte strings shorter
than 32 bytes are left-padded — a no-op on the numeric value — and longer
ones are rejected with a decode error. -/
def pad_and_parse_32bytes (bs : Bytes) : Except String Nat :=
  if 32 < bs.length then .error "Byte slice too long" else .ok (bytesToNat bs)

/-- Modelled from the spec: `pad_and_parse_h160` (its file,
`extractor/evm/utils.rs`, is absent from the sources). 20-byte variant of
`pad_and_parse_32bytes`. -/
def pad_and_parse_h160 (bs : Bytes) : Except String Nat :=
  if 20 < bs.length then .error "Byte slice too long" else .ok (bytesToNat bs)

/-- Stand-in for chrono's `NaiveDateTime::from_timestamp_opt` range check
(chrono is an external crate): seconds beyond chrono's representable maximum
yield `none`. -/
def naiveDateTimeFromTimestamp (ts : Nat) : Option Timestamp :=
  if ts ≤ 8210266876799 then some ts else none

/-- `Block::try_from_message`. -/
def Block.try_from_message (msg : PbBlock) (chain : Chain) :
    Except ExtractionError Block :=
  match pad_and_parse_32bytes msg.hash with
  | .error e => .error (.DecodeError e)
  | .ok hash =>
    match pad_and_parse_32bytes msg.parent_hash with
    | .error e => .error (.DecodeError e)
    | .ok parent_hash =>
      match naiveDateTimeFromTimestamp msg.ts with
      | none => .error (.DecodeError "Failed to convert timestamp to datetime!")
      | some ts => .ok { chain, number := msg.number, hash, parent_hash, ts }

/-- `Transaction::try_from_message`. -/
def Transaction.try_from_message (msg : PbTransaction) (block_hash : H256) :
    Except ExtractionError Transaction :=
  match (if msg.recipient ≠ [] then
           (pad_and_parse_h160 msg.recipient).map some
         else .ok none) with
  | .error e => .error (.DecodeError e)
  | .ok recipient =>
    match pad_and_parse_32bytes msg.hash with
    | .error e => .error (.DecodeError e)
    | .ok hash =>
      match pad_and_parse_h160 msg.sender with
      | .error e => .error (.DecodeError e)
      | .ok sender =>
        .ok { hash, block_hash, sender, recipient, index := msg.index }

/-- `AccountUpdateWithTx::try_from_message`. -/
def AccountUpdateWithTx.try_from_message (msg : PbContractChange)
    (tx : Transaction) (chain : Chain) :
    Except ExtractionError AccountUpdateWithTx :=
  match pad_and_parse_h160 msg.address with
  | .error e => .error (.DecodeError e)
  | .ok address =>
    match msg.slots.mapM (fun cs =>
        (match pad_and_parse_32bytes cs.slot with
         | .error e => .error (ExtractionError.DecodeError e)
         | .ok s =>
           match pad_and_parse_32bytes cs.value with
           | .error e => .error (ExtractionError.DecodeError e)
           | .ok v => .ok (s, v) :
         Except ExtractionError (U256 × U256))) with
    | .error e => .error e
    | .ok slots =>
      match (if msg.balance ≠ [] then
               (pad_and_parse_32bytes msg.balance).map some
             else .ok none) with
      | .error e => .error (.DecodeError e)
      | .ok balance =>
        .ok { update :=
                { address, chain, slots
                  balance
                  code := if msg.code ≠ [] then some msg.code else none
                  change := msg.change }
              tx }

/-- The per-`TransactionChanges` part of `BlockStateChanges::try_from_message`:
a group without a transaction header contributes nothing; otherwise each
contract change is parsed against the group's transaction. -/
def parseTxGroup (chain : Chain) (block_hash : H256) (change : PbTransactionChanges) :
    Except ExtractionError (List AccountUpdateWithTx) :=
  match change.tx with
  | none => .ok []
  | some pbTx => do
    let tx ← Transaction.try_from_message pbTx block_hash
    change.contract_changes.mapM
      (fun el => AccountUpdateWithTx.try_from_message el tx chain)

/-- `BlockStateChanges::try_from_message`: a message without a block payload
fails with `Empty`; otherwise parse everything and sort the updates by
transaction index. -/
def BlockStateChanges.try_from_message (msg : PbBlockContractChanges)
    (extractor : String) (chain : Chain) :
    Except ExtractionError BlockStateChanges :=
  match msg.block with
  | some pbBlock => do
    let block ← Block.try_from_message pbBlock chain
    let groups ← msg.changes.mapM (parseTxGroup chain block.hash)
    let tx_updates := (groups.flatten).mergeSort (fun a b => a.tx.index ≤ b.tx.index)
    .ok { extractor, chain, block, tx_updates }
  | none => .error .Empty

/-! ## Storage identifiers and the ambient gateway (`storage/mod.rs`,
`extractor/evm/ambient.rs`) -/

/-- `storage/mod.rs`: `BlockIdentifier`. -/
inductive BlockIdentifier
  | Number : Chain → Int → BlockIdentifier
  | Hash : Bytes → BlockIdentifier
  | Latest : Chain → BlockIdentifier
deriving DecidableEq

/-- `storage/mod.rs`: `BlockOrTimestamp`. -/
inductive BlockOrTimestamp
  | Block : BlockIdentifier → BlockOrTimestamp
  | Timestamp : Timestamp → BlockOrTimestamp
deriving DecidableEq

/-- `models.rs`: `ExtractionState` (the serde attribute bag, always `None` on
the paths under study, is not modelled; the cursor is kept as the string it
was created from). -/
structure ExtractionState where
  name : String
  chain : Chain
  cursor : String
deriving DecidableEq

/-- `extractor/evm/mod.rs`: `Account`. -/
structure Account where
  chain : Chain
  address : H160
  title : String
  slots : List (U256 × U256)
  balance : U256
  code : Bytes
  code_hash : H256
  balance_modify_tx : H256
  code_modify_tx : H256
  creation_tx : Option H256
deriving DecidableEq

/-- Stand-in for the external keccak256 hash (the `ethers` crate); no claim
under study depends on its values, only on where the source places it. -/
def keccak256 (b : Bytes) : H256 :=
  bytesToNat b

/-- `From<&AccountUpdateWithTx> for Account`: materialize a full account from
a creation change, using the associated transaction as creation, balance and
code modify transaction and defaulting missing fields. -/
def Account.fromUpdateWithTx (value : AccountUpdateWithTx) : Account :=
  { chain := value.update.chain
    address := value.update.address
    title := toString value.update.address
    slots := value.update.slots
    balance := value.update.balance.getD 0
    code := value.update.code.getD []
    code_hash := keccak256 (value.update.code.getD [])
    balance_modify_tx := value.tx.hash
    code_modify_tx := value.tx.hash
    creation_tx := some value.tx.hash }

/-- The `EVMStateGateway` interface the ambient gateway talks to, over an
abstract database state `σ`. Writes return the new database state paired
with an optional error (each primitive is individually atomic); reads return
a value without changing the state. The theorems quantify over every
interpretation of these primitives. -/
structure EVMStateGateway (σ : Type) where
  upsert_block : Block → σ → σ × Option StorageError
  upsert_tx : Transaction → σ → σ × Option StorageError
  insert_contract : Account → σ → σ × Option StorageError
  update_contracts : Chain → List (H256 × AccountUpdate) → σ → σ × Option StorageError
  save_state : ExtractionState → σ → σ × Option StorageError
  get_block : BlockIdentifier → σ → Except StorageError Block
  get_account_delta : Chain → Option BlockOrTimestamp → BlockOrTimestamp → σ →
    Except StorageError (List AccountUpdate)
  revert_contract_state : BlockIdentifier → σ → σ × Option StorageError

/-- Sequencing of database writes: stop at the first error, keeping the
effects of the successful prefix (no rollback at this level). -/
def andThenW {σ : Type} (step : σ × Option StorageError)
    (next : σ → σ × Option StorageError) : σ × Option StorageError :=
  match step with
  | (db, none) => next db
  | (db, some e) => (db, some e)

/-- `diesel` `conn.transaction(..)` for write sequences: on success commit
the final state, on error roll the database back to the state at entry. -/
def dbTransaction {σ : Type} (f : σ → σ × Option StorageError) (db : σ) :
    σ × Option StorageError :=
  match f db with
  | (db2, none) => (db2, none)
  | (_, some e) => (db, some e)

/-- `conn.transaction(..)` for a sequence returning a value. -/
def dbTransactionV {σ V : Type} (f : σ → σ × Except StorageError V) (db : σ) :
    σ × Except StorageError V :=
  match f db with
  | (db2, .ok v) => (db2, .ok v)
  | (_, .error e) => (db, .error e)

/-- `AmbientPgGateway::save_cursor`. -/
def AmbientPgGateway.save_cursor {σ : Type} (g : EVMStateGateway σ)
    (name : String) (chain : Chain) (new_cursor : String) (db : σ) :
    σ × Option StorageError :=
  g.save_state { name, chain, cursor := new_cursor } db

/-- The per-transaction loop of `AmbientPgGateway::forward`: upsert each
transaction and insert newly created contracts. -/
def forwardTxs {σ : Type} (g : EVMStateGateway σ) :
    List AccountUpdateWithTx → σ → σ × Option StorageError
  | [], db => (db, none)
  | u :: rest, db =>
    andThenW (g.upsert_tx u.tx db) (fun db =>
      andThenW (if u.update.is_creation
                then g.insert_contract (Account.fromUpdateWithTx u) db
                else (db, none))
        (fun db => forwardTxs g rest db))

/-- `AmbientPgGateway::forward`: upsert the block, process every transaction,
apply the batched contract updates, save the cursor. -/
def AmbientPgGateway.forward {σ : Type} (g : EVMStateGateway σ)
    (name : String) (chain : Chain) (changes : BlockStateChanges)
    (new_cursor : String) (db : σ) : σ × Option StorageError :=
  andThenW (g.upsert_block changes.block db) (fun db =>
    andThenW (forwardTxs g changes.tx_updates db) (fun db =>
      andThenW (g.update_contracts chain
          ((changes.tx_updates.filter (fun u => u.update.is_update)).map
            (fun u => (u.tx.hash, u.update))) db)
        (fun db => AmbientPgGateway.save_cursor g name chain new_cursor db)))

/-- The hard-coded ambient contract address
`0xaaaaaaaaa24eeeb8d57d431224f73832bc34f688`. -/
def AMBIENT_CONTRACT : H160 :=
  0xaaaaaaaaa24eeeb8d57d431224f73832bc34f688

/-- Model of `Iterator::collect::<HashMap<_, _>>()`: sequential keyed insert
with overwrite. -/
def collectMap {α β : Type} [DecidableEq α] (l : List (α × β)) : List (α × β) :=
  l.foldl (fun acc p => alInsert p.1 p.2 acc) []

/-- `AmbientPgGateway::backward`: look the target block up, compute account
deltas, keep only the ambient contract's delta, revert the contract state,
save the cursor, and assemble the revert message. -/
def AmbientPgGateway.backward {σ : Type} (g : EVMStateGateway σ)
    (name : String) (chain : Chain) (targetBlock : BlockIdentifier)
    (new_cursor : String) (db : σ) : σ × Except StorageError BlockAccountChanges :=
  match g.get_block targetBlock db with
  | .error e => (db, .error e)
  | .ok block =>
    match g.get_account_delta chain none (BlockOrTimestamp.Block targetBlock) db with
    | .error e => (db, .error e)
    | .ok deltas =>
      match g.revert_contract_state targetBlock db with
      | (db2, some e) => (db2, .error e)
      | (db2, none) =>
        match AmbientPgGateway.save_cursor g name chain new_cursor db2 with
        | (db3, some e) => (db3, .error e)
        | (db3, none) =>
          (db3, .ok (BlockAccountChanges.new name chain block
            (collectMap (deltas.filterMap (fun u =>
              if u.address = AMBIENT_CONTRACT then some (u.address, u) else none)))))

/-- `AmbientPgGateway::upsert_contract`: `forward` wrapped in one database
transaction. -/
def AmbientPgGateway.upsert_contract {σ : Type} (g : EVMStateGateway σ)
    (name : String) (chain : Chain) (changes : BlockStateChanges)
    (new_cursor : String) (db : σ) : σ × Option StorageError :=
  dbTransaction (AmbientPgGateway.forward g name chain changes new_cursor) db

/-- `AmbientPgGateway::revert`: `backward` wrapped in one database
transaction. -/
def AmbientPgGateway.revert {σ : Type} (g : EVMStateGateway σ)
    (name : String) (chain : Chain) (targetBlock : BlockIdentifier)
    (new_cursor : String) (db : σ) : σ × Except StorageError BlockAccountChanges :=
  dbTransactionV (AmbientPgGateway.backward g name chain targetBlock new_cursor) db

/-! ## The ambient extractor handlers (`extractor/evm/ambient.rs`) -/

/-- Upstream `BlockScopedData`, with the protobuf envelope already opened:
`msg` stands for the decoded `output.map_output.value` payload (the
`prost::Message::decode` step and the panicking `unwrap`s of the envelope are
outside the model). -/
structure BlockScopedData where
  msg : PbBlockContractChanges
  cursor : String
deriving DecidableEq

/-- Upstream `BlockRef`. -/
structure BlockRef where
  id : String
  number : Nat
deriving DecidableEq

/-- Upstream `BlockUndoSignal`. -/
structure BlockUndoSignal where
  last_valid_block : Option BlockRef
  last_valid_cursor : String
deriving DecidableEq

/-- Outcome of a handler call: the returned value, the database state after
the call, and the extractor's in-memory cursor after the call. -/
structure TickResult (σ : Type) where
  result : Except ExtractionError (Option BlockAccountChanges)
  db : σ
  cursor : String

/-- Value of a single hexadecimal digit. -/
def hexDigit (c : Char) : Option Nat :=
  if '0' ≤ c ∧ c ≤ '9' then some (c.toNat - '0'.toNat)
  else if 'a' ≤ c ∧ c ≤ 'f' then some (c.toNat - 'a'.toNat + 10)
  else if 'A' ≤ c ∧ c ≤ 'F' then some (c.toNat - 'A'.toNat + 10)
  else none

/-- Stand-in for `H256::from_str` of the external `ethers` crate: an optional
`0x` marker followed by exactly 64 hexadecimal digits. -/
def parseH256Hex (s : String) : Option H256 :=
  let cs := s.toList
  let t := if cs.take 2 = ['0', 'x'] then cs.drop 2 else cs
  if t.length = 64 then
    t.foldlM (fun acc c => (hexDigit c).map (fun d => acc * 16 + d)) 0
  else none

/-- Big-endian byte encoding of fixed width (`H256::as_bytes`). -/
def natToBytesBE (len n : Nat) : Bytes :=
  (List.range len).reverse.map (fun i => n / 256 ^ i % 256)

/-- `AmbientContractExtractor::handle_tick_scoped_data`. State threaded
explicitly: `db` is the database behind the gateway, `cursor` the extractor's
in-memory cursor. An `Empty` decode advances the cursor and acks without a
write; a gateway error propagates with the cursor untouched; on success the
cursor advances and the aggregated message is returned. -/
def AmbientContractExtractor.handle_tick_scoped_data {σ : Type}
    (g : EVMStateGateway σ) (name : String) (chain : Chain)
    (db : σ) (cursor : String) (inp : BlockScopedData) : TickResult σ :=
  match BlockStateChanges.try_from_message inp.msg name chain with
  | .error .Empty => { result := .ok none, db, cursor := inp.cursor }
  | .error e => { result := .error e, db, cursor }
  | .ok msg =>
    match AmbientPgGateway.upsert_contract g name chain msg inp.cursor db with
    | (db2, some e) => { result := .error (.Storage e), db := db2, cursor }
    | (db2, none) =>
      match msg.aggregate_updates with
      | .error e => { result := .error e, db := db2, cursor := inp.cursor }
      | .ok agg => { result := .ok (some agg), db := db2, cursor := inp.cursor }

/-- `AmbientContractExtractor::handle_revert`. -/
def AmbientContractExtractor.handle_revert {σ : Type}
    (g : EVMStateGateway σ) (name : String) (chain : Chain)
    (db : σ) (cursor : String) (inp : BlockUndoSignal) : TickResult σ :=
  match inp.last_valid_block with
  | none => { result := .error (.DecodeError "Revert without block ref"), db, cursor }
  | some block_ref =>
    match parseH256Hex block_ref.id with
    | none =>
      { result := .error (.DecodeError
          ("Failed to parse " ++ block_ref.id ++ " as block hash")), db, cursor }
    | some block_hash =>
      match AmbientPgGateway.revert g name chain
          (BlockIdentifier.Hash (natToBytesBE 32 block_hash))
          inp.last_valid_cursor db with
      | (db2, .error e) => { result := .error (.Storage e), db := db2, cursor }
      | (db2, .ok changes) =>
        { result := .ok (if changes.account_updates.isEmpty then none else some changes)
          db := db2
          cursor := inp.last_valid_cursor }

/-! ## The fan-out subscription table (`extractor/runner.rs`) -/

/-- `ExtractorRunner::subscribe`: the new subscriber id is the current size
of the subscription table; the sender is inserted under it. Senders are
modelled by opaque numeric identities. -/
def ExtractorRunner.subscribe (subscriptions : List (Nat × Nat)) (sender : Nat) :
    List (Nat × Nat) :=
  alInsert subscriptions.length sender subscriptions

/-- The two operations that modify the subscription table: a `Subscribe`
control message and the removal of a dropped subscriber performed at the end
of `ExtractorRunner::propagate_msg`. -/
inductive SubscriptionOp
  | subscribeOp (sender : Nat)
  | removeOp (id : Nat)

/-- Apply a sequence of subscription-table operations. -/
def applySubscriptionOps : List SubscriptionOp → List (Nat × Nat) → List (Nat × Nat)
  | [], subs => subs
  | .subscribeOp s :: rest, subs =>
    applySubscriptionOps rest (ExtractorRunner.subscribe subs s)
  | .removeOp i :: rest, subs =>
    applySubscriptionOps rest (alRemove i subs)

/-! ## RPC version parsing and handler statuses (`services/rpc.rs`) -/

/-- `tycho_types::dto::BlockParam` as consumed by the `TryFrom` impl: all
three components optional. -/
structure BlockParam where
  hash : Option Bytes
  chain : Option Chain
  number : Option Int
deriving DecidableEq

/-- `tycho_types::dto::VersionParam`. -/
structure VersionParam where
  timestamp : Option Timestamp
  block : Option BlockParam
deriving DecidableEq

/-- `services/rpc.rs`: `RpcError`. -/
inductive RpcError
  | Parse (msg : String)
  | Storage (e : StorageError)
  | Connection (msg : String)
deriving DecidableEq

/-- `TryFrom<&dto::VersionParam> for BlockOrTimestamp`: a present block wins
over the timestamp; inside the block a present hash wins over
`(chain, number)`. -/
def BlockOrTimestamp.try_from_version (version : VersionParam) :
    Except RpcError BlockOrTimestamp :=
  match version.timestamp, version.block with
  | _, some block =>
    match block.hash, block.chain, block.number with
    | some hash, _, _ => .ok (.Block (.Hash hash))
    | _, some chain, some number => .ok (.Block (.Number chain number))
    | _, _, _ => .error (.Parse "Insufficient block information")
  | some timestamp, none => .ok (.Timestamp timestamp)
  | none, none => .error (.Parse "Missing timestamp or block identifier")

/-- `dto::StateRequestBody`, reduced to the parts the handler reads:
requested contract addresses and the version parameter. -/
structure StateRequestBody where
  contract_ids : Option (List Bytes)
  version : VersionParam
deriving DecidableEq

/-- `RpcHandler::get_contract_state_inner`: parse the version, then pass the
storage layer's answer through, wrapping storage errors. The storage call
itself is abstracted by its result (`storageResult`). -/
def RpcHandler.get_contract_state_inner
    (storageResult : Except StorageError (List Account))
    (body : StateRequestBody) : Except RpcError (List Account) :=
  match BlockOrTimestamp.try_from_version body.version with
  | .error e => .error e
  | .ok _ =>
    match storageResult with
    | .ok accounts => .ok accounts
    | .error err => .error (.Storage err)

/-- The `contract_state` actix handler: 200 with the body on success, 500 on
any error. -/
def contract_state (storageResult : Except StorageError (List Account))
    (body : StateRequestBody) : Nat :=
  match RpcHandler.get_contract_state_inner storageResult body with
  | .ok _ => 200
  | .error _ => 500

/-- `extractor/evm/mod.rs`: `ERC20Token`, reduced to the fields the tokens
endpoint serializes. -/
structure ERC20Token where
  chain : Chain
  address : H160
  symbol : String
  decimals : Nat
deriving DecidableEq

/-- `RpcHandler::get_tokens_inner`: pass the storage layer's answer through,
wrapping storage errors. -/
def RpcHandler.get_tokens_inner
    (storageResult : Except StorageError (List ERC20Token)) :
    Except RpcError (List ERC20Token) :=
  match storageResult with
  | .ok tokens => .ok tokens
  | .error err => .error (.Storage err)

/-- The `tokens` actix handler: 200 on success, 500 on any error. -/
def tokens (storageResult : Except StorageError (List ERC20Token)) : Nat :=
  match RpcHandler.get_tokens_inner storageResult with
  | .ok _ => 200
  | .error _ => 500

/-! ## Curve zero-token trimming (`extractor/compat/attributes.rs`) -/

/-- Bytes of an ASCII string (for the static-attribute constants). -/
def strBytes (s : String) : Bytes :=
  s.toList.map Char.toNat

/-- The `stable_swap_factory` marker bytes. -/
def STABLE_SWAP_FACTORY : Bytes :=
  strBytes "stable_swap_factory"

/-- The `plain_pool` marker bytes. -/
def PLAIN_POOL : Bytes :=
  strBytes "plain_pool"

/-- The protocol component shape consumed by the compat post-processors (the
newer `extractor/evm` component, reconstructed from its uses and the test
fixtures in `compat/attributes.rs`). -/
structure ProtocolComponent where
  id : String
  protocol_system : String
  protocol_type_name : String
  chain : Chain
  tokens : List H160
  contract_ids : List H160
  static_attributes : List (String × Bytes)
  creation_tx : H256
  created_at : Timestamp
  change : ChangeType
deriving DecidableEq

/-- `TransactionVMUpdates` as consumed by `trim_curve_component_token`
(`component_balances`, whose element type is external to the sources, is not
modelled; the function never touches it). -/
structure TransactionVMUpdates where
  account_updates : List (H160 × AccountUpdate)
  protocol_components : List (String × ProtocolComponent)
  tx : Transaction
deriving DecidableEq

/-- The newer `BlockContractChanges` container operated on by the compat
post-processors. -/
structure BlockContractChanges where
  extractor : String
  chain : Chain
  block : Block
  finalized_block_height : Nat
  revert : Bool
  tx_updates : List TransactionVMUpdates
deriving DecidableEq

/-- The per-component body of `trim_curve_component_token`: when the static
attributes carry `factory_name = stable_swap_factory` and
`pool_type = plain_pool`, retain only the tokens different from
`H160::zero()`. -/
def trimComponentTokens (component : ProtocolComponent) : ProtocolComponent :=
  match alLookup "factory_name" component.static_attributes with
  | some factory_name =>
    if factory_name = STABLE_SWAP_FACTORY then
      match alLookup "pool_type" component.static_attributes with
      | some pool_type =>
        if pool_type = PLAIN_POOL then
          { component with tokens := component.tokens.filter (fun token => token ≠ 0) }
        else component
      | none => component
    else component
  | none => component

/-- `trim_curve_component_token`: apply the per-component trimming to every
component of every transaction group, in place. -/
def trim_curve_component_token (changes : BlockContractChanges) :
    BlockContractChanges :=
  { changes with tx_updates := changes.tx_updates.map (fun txu =>
      { txu with protocol_components :=
          txu.protocol_components.map (fun p => (p.1, trimComponentTokens p.2)) }) }

/-- The component predicate of the claim: the static attributes mark the
component as the stable-swap-factory plain-pool variant. -/
def isPlainPoolVariant (component : ProtocolComponent) : Prop :=
  alLookup "factory_name" component.static_attributes = some STABLE_SWAP_FACTORY ∧
    alLookup "pool_type" component.static_attributes = some PLAIN_POOL

instance (component : ProtocolComponent) : Decidable (isPlainPoolVariant component) := by
  unfold isPlainPoolVariant
  infer_instance

/-- The trimming the specification describes, written from the spec's words:
remove only the trailing all-zero token entries. -/
def trimTrailingZeroTokens (tokens : List H160) : List H160 :=
  (List.dropWhile (fun t => t = 0) tokens.reverse).reverse

/-- `get_protocol_components_inner`: pass the storage layer's answer
through, wrapping storage errors. -/
def RpcHandler.get_protocol_components_inner
    (storageResult : Except StorageError (List ProtocolComponent)) :
    Except RpcError (List ProtocolComponent) :=
  match storageResult with
  | .ok components => .ok components
  | .error err => .error (.Storage err)

/-- The `protocol_components` actix handler: 200 on success, 500 on any
error. -/
def protocol_components
    (storageResult : Except StorageError (List ProtocolComponent)) : Nat :=
  match RpcHandler.get_protocol_components_inner storageResult with
  | .ok _ => 200
  | .error _ => 500

/-- Sequentially merging a list of same-account updates into an accumulator:
the single-address specialization of the `aggregate_updates` fold, used to
reason about it. -/
def mergeChain (cur : AccountUpdateWithTx) : List AccountUpdateWithTx →
    Except ExtractionError AccountUpdateWithTx
  | [] => .ok cur
  | u :: rest =>
    match AccountUpdateWithTx.merge cur u with
    | (merged, none) => mergeChain merged rest
    | (_, some e) => .error e

/-! ## Concrete fixtures used to evaluate the theorems on closed inputs -/

/-- A concrete gateway over a write-counter database: every write bumps the
counter and succeeds, reads return fixed data. -/
def testGateway : EVMStateGateway Nat :=
  { upsert_block := fun _ db => (db + 1, none)
    upsert_tx := fun _ db => (db + 1, none)
    insert_contract := fun _ db => (db + 1, none)
    update_contracts := fun _ _ db => (db + 1, none)
    save_state := fun _ db => (db + 1, none)
    get_block := fun _ _ =>
      .ok { number := 1, hash := 2, parent_hash := 1, chain := .Ethereum, ts := 1000 }
    get_account_delta := fun _ _ _ _ =>
      .ok [{ address := AMBIENT_CONTRACT, chain := .Ethereum, slots := [],
             balance := some 5, code := none, change := .Update },
           { address := 99, chain := .Ethereum, slots := [],
             balance := some 6, code := none, change := .Update }]
    revert_contract_state := fun _ db => (db + 1, none) }

/-- A gateway whose batched contract update and state revert fail. -/
def failingGateway : EVMStateGateway Nat :=
  { testGateway with
    update_contracts := fun _ _ db => (db, some (.Unexpected "boom"))
    revert_contract_state := fun _ db => (db, some (.Unexpected "boom")) }

/-- A parsed message for a block carrying no transaction updates. -/
def msgW : BlockStateChanges :=
  { extractor := "x", chain := .Ethereum
    block := { number := 1, hash := 1, parent_hash := 2, chain := .Ethereum, ts := 1000 }
    tx_updates := [] }

/-- The upstream envelope whose payload decodes to `msgW`. -/
def inpFullW : BlockScopedData :=
  { msg := { block := some { hash := [1], parent_hash := [2], number := 1, ts := 1000 }
             changes := [] }
    cursor := "c2" }

/-- An undo signal pointing at the all-zero block hash. -/
def inpRevW : BlockUndoSignal :=
  { last_valid_block := some
      { id := "0000000000000000000000000000000000000000000000000000000000000000"
        number := 4 }
    last_valid_cursor := "c0" }

/-- The revert message `backward` produces for `testGateway` on an empty
database counter. -/
def revChangesW : BlockAccountChanges :=
  BlockAccountChanges.new "x" .Ethereum
    { number := 1, hash := 2, parent_hash := 1, chain := .Ethereum, ts := 1000 }
    [(AMBIENT_CONTRACT,
      { address := AMBIENT_CONTRACT, chain := .Ethereum, slots := [],
        balance := some 5, code := none, change := .Update })]

/-- Two same-account per-transaction updates used to evaluate the
aggregation fold rule. -/
def msgAggW : BlockStateChanges :=
  { extractor := "x", chain := .Ethereum
    block := { number := 1, hash := 5, parent_hash := 4, chain := .Ethereum, ts := 1000 }
    tx_updates :=
      [{ update := { address := 7, chain := .Ethereum, slots := [(1, 10), (2, 20)]
                     balance := some 100, code := none, change := .Creation }
         tx := { hash := 1, block_hash := 5, sender := 0, recipient := none, index := 1 } },
       { update := { address := 7, chain := .Ethereum, slots := [(2, 99), (3, 30)]
                     balance := none, code := some [1], change := .Update }
         tx := { hash := 2, block_hash := 5, sender := 0, recipient := none, index := 2 } }] }

/-- The aggregation of `msgAggW`. -/
def bacAggW : BlockAccountChanges :=
  BlockAccountChanges.new "x" .Ethereum
    { number := 1, hash := 5, parent_hash := 4, chain := .Ethereum, ts := 1000 }
    [(7, { address := 7, chain := .Ethereum, slots := [(1, 10), (2, 99), (3, 30)]
           balance := some 100, code := some [1], change := .Creation })]

/-- A curve stable-swap plain-pool component with zero tokens in leading and
trailing positions. -/
def curveVariantComponent : ProtocolComponent :=
  { id := "pool1", protocol_system := "curve", protocol_type_name := "Pool"
    chain := .Ethereum, tokens := [0, 5, 0], contract_ids := []
    static_attributes :=
      [("factory_name", STABLE_SWAP_FACTORY), ("pool_type", PLAIN_POOL)]
    creation_tx := 0, created_at := 0, change := .Creation }

/-- A component that is not a plain-pool variant. -/
def curveOtherComponent : ProtocolComponent :=
  { id := "pool2", protocol_system := "curve", protocol_type_name := "Pool"
    chain := .Ethereum, tokens := [0, 7], contract_ids := []
    static_attributes := [], creation_tx := 0, created_at := 0, change := .Creation }

/-- A transaction group carrying both components. -/
def curveTxUpdatesW : TransactionVMUpdates :=
  { account_updates := []
    protocol_components :=
      [("pool1", curveVariantComponent), ("pool2", curveOtherComponent)]
    tx := { hash := 0, block_hash := 0, sender := 0, recipient := none, index := 0 } }

/-- The same group after trimming: the plain-pool variant loses every zero
token, the other component is untouched. -/
def curveTrimmedTxUpdatesW : TransactionVMUpdates :=
  { account_updates := []
    protocol_components :=
      [("pool1", { curveVariantComponent with tokens := [5] }),
       ("pool2", curveOtherComponent)]
    tx := { hash := 0, block_hash := 0, sender := 0, recipient := none, index := 0 } }

/-- A block of contract changes carrying the two curve components. -/
def curveChangesW : BlockContractChanges :=
  { extractor := "test", chain := .Ethereum
    block := { number := 0, hash := 0, parent_hash := 0, chain := .Ethereum, ts := 0 }
    finalized_block_height := 0, revert := false
    tx_updates := [curveTxUpdatesW] }

/-! ## Helper lemmas -/

theorem alLookup_alInsert_self {β : Type} (k : Nat) (v : β) (l : List (Nat × β)) :
    alLookup k (alInsert k v l) = some v := by
  induction l with
  | nil => simp [alLookup, alInsert]
  | cons p rest ih =>
    by_cases h : p.1 = k
    · simp [alInsert, h, alLookup]
    · simp [alInsert, h, alLookup, ih]

theorem alLookup_alInsert_ne {β : Type} (k k' : Nat) (v : β) (l : List (Nat × β))
    (h : k ≠ k') : alLookup k' (alInsert k v l) = alLookup k' l := by
  induction l with
  | nil => simp [alLookup, alInsert, h]
  | cons p rest ih =>
    by_cases hp : p.1 = k
    · have hp' : ¬ p.1 = k' := by rw [hp]; exact h
      simp [alInsert, hp, alLookup, h, hp']
    · by_cases hq : p.1 = k'
      · simp [alInsert, hp, alLookup, hq, h.symm]
      · simp [alInsert, hp, alLookup, hq, ih]

theorem alLookup_eq_none {β : Type} (k : Nat) (l : List (Nat × β))
    (h : k ∉ l.map Prod.fst) : alLookup k l = none := by
  induction l with
  | nil => simp [alLookup]
  | cons p rest ih =>
    simp only [List.map_cons, List.mem_cons] at h
    push_neg at h
    have h1 : ¬ p.1 = k := fun hq => h.1 hq.symm
    simp [alLookup, h1, ih h.2]

theorem alInsert_not_mem {β : Type} (k : Nat) (v : β) (l : List (Nat × β))
    (h : k ∉ l.map Prod.fst) : alInsert k v l = l ++ [(k, v)] := by
  induction l with
  | nil => simp [alInsert]
  | cons p rest ih =>
    simp only [List.map_cons, List.mem_cons] at h
    push_neg at h
    have h1 : ¬ p.1 = k := fun hq => h.1 hq.symm
    simp [alInsert, h1, ih h.2]

theorem optOr_assoc {α : Type} (a b c : Option α) :
    (a.or b).or c = a.or (b.or c) := by
  cases a <;> simp [Option.or]

theorem lookup_slotsExtend (s o : List (U256 × U256)) (k : U256)
    (h : (o.map Prod.fst).Nodup) :
    alLookup k (slotsExtend s o) = (alLookup k o).or (alLookup k s) := by
  induction o generalizing s with
  | nil => simp [slotsExtend, alLookup, Option.or]
  | cons p rest ih =>
    simp only [List.map_cons, List.nodup_cons] at h
    have hstep : slotsExtend s (p :: rest) = slotsExtend (alInsert p.1 p.2 s) rest := by
      simp [slotsExtend, List.foldl_cons]
    rw [hstep, ih _ h.2]
    by_cases hk : p.1 = k
    · subst hk
      rw [alLookup_alInsert_self]
      have : alLookup p.1 rest = none := alLookup_eq_none _ _ h.1
      simp [alLookup, this, Option.or]
    · rw [alLookup_alInsert_ne _ _ _ _ hk]
      simp [alLookup, hk]

theorem merge_ok_fields (cur u merged : AccountUpdateWithTx)
    (h : AccountUpdateWithTx.merge cur u = (merged, none)) :
    merged.update.address = cur.update.address ∧
    merged.update.slots = slotsExtend cur.update.slots u.update.slots ∧
    merged.update.balance = u.update.balance.or cur.update.balance ∧
    merged.update.code = u.update.code.or cur.update.code ∧
    merged.update.change = cur.update.change ∧
    merged.tx = u.tx := by
  unfold AccountUpdateWithTx.merge at h
  split at h
  · simp at h
  · split at h
    · simp at h
    · split at h
      · simp at h
      · split at h
        · simp at h
        · rename_i u' heq
          simp only [Prod.mk.injEq] at h
          obtain ⟨hm, -⟩ := h
          subst hm
          unfold AccountUpdate.merge at heq
          split at heq
          · cases heq
          · cases heq
            simp

theorem mergeChain_props (us : List AccountUpdateWithTx) :
    ∀ cur r, mergeChain cur us = .ok r →
      (∀ u ∈ us, (u.update.slots.map Prod.fst).Nodup) →
      (∀ k, alLookup k r.update.slots
          = (latestSlotValue us k).or (alLookup k cur.update.slots)) ∧
      r.update.balance = (latestBalance us).or cur.update.balance ∧
      r.update.code = (latestCode us).or cur.update.code ∧
      r.update.change = cur.update.change ∧
      r.update.address = cur.update.address := by
  induction us with
  | nil =>
    intro cur r h _
    simp only [mergeChain] at h
    cases h
    simp [latestSlotValue, latestBalance, latestCode, Option.or]
  | cons u rest ih =>
    intro cur r h hnd
    simp only [mergeChain] at h
    split at h
    · rename_i merged heq
      have hfields := merge_ok_fields cur u merged heq
      have hrest := ih merged r h (fun x hx => hnd x (List.mem_cons_of_mem _ hx))
      have hu_nd : (u.update.slots.map Prod.fst).Nodup := hnd u (List.mem_cons_self _ _)
      refine ⟨?_, ?_, ?_, ?_, ?_⟩
      · intro k
        rw [hrest.1 k, hfields.2.1, lookup_slotsExtend _ _ _ hu_nd,
          latestSlotValue, ← optOr_assoc]
      · rw [hrest.2.1, hfields.2.2.1, latestBalance, ← optOr_assoc]
      · rw [hrest.2.2.1, hfields.2.2.2.1, latestCode, ← optOr_assoc]
      · rw [hrest.2.2.2.1, hfields.2.2.2.2.1]
      · rw [hrest.2.2.2.2, hfields.1]
    · simp at h

theorem aggregate_single_address (us : List AccountUpdateWithTx) :
    ∀ (a : H160) (cur : AccountUpdateWithTx),
      (∀ u ∈ us, u.update.address = a) → cur.update.address = a →
      us.foldlM aggStep [(a, cur)] = (mergeChain cur us).map (fun r => [(a, r)]) := by
  induction us with
  | nil =>
    intro a cur _ _
    simp only [List.foldlM, mergeChain]
    rfl
  | cons u rest ih =>
    intro a cur haddr hcur
    have hu : u.update.address = a := haddr u (List.mem_cons_self _ _)
    have hstep : aggStep [(a, cur)] u
        = (match AccountUpdateWithTx.merge cur u with
           | (merged, none) => .ok [(a, merged)]
           | (_, some e) => .error e) := by
      unfold aggStep
      rw [hu]
      have hl : alLookup a ([(a, cur)] : List (H160 × AccountUpdateWithTx))
          = some cur := by simp [alLookup]
      rw [hl]
      rcases hmu : AccountUpdateWithTx.merge cur u with ⟨m, me⟩
      cases me with
      | none => simp [hmu, alInsert]
      | some e => simp [hmu]
    simp only [List.foldlM, hstep, mergeChain]
    rcases hmu : AccountUpdateWithTx.merge cur u with ⟨m, me⟩
    cases me with
    | none =>
      have hm : m.update.address = a := by
        rw [(merge_ok_fields cur u m hmu).1, hcur]
      exact ih a m (fun x hx => haddr x (List.mem_cons_of_mem _ hx)) hm
    | some e => rfl

theorem mem_collectMap {α β : Type} [DecidableEq α] (l : List (α × β))
    (p : α × β) (h : p ∈ collectMap l) : p ∈ l := by
  suffices hgen : ∀ acc : List (α × β),
      p ∈ l.foldl (fun acc q => alInsert q.1 q.2 acc) acc → p ∈ acc ∨ p ∈ l by
    rcases hgen [] h with h' | h'
    · cases h'
    · exact h'
  clear h
  induction l with
  | nil => intro acc h; exact Or.inl h
  | cons q rest ih =>
    intro acc h
    rcases ih (alInsert q.1 q.2 acc) h with h' | h'
    · have hins : ∀ (m : List (α × β)), p ∈ alInsert q.1 q.2 m → p = q ∨ p ∈ m := by
        intro m
        induction m with
        | nil => simp [alInsert]
        | cons r rm ihm =>
          simp only [alInsert]
          split
          · intro hm
            rcases List.mem_cons.mp hm with h1 | h1
            · exact Or.inl h1
            · exact Or.inr (List.mem_cons_of_mem _ h1)
          · intro hm
            rcases List.mem_cons.mp hm with h1 | h1
            · exact Or.inr (h1 ▸ List.mem_cons_self _ _)
            · rcases ihm h1 with h2 | h2
              · exact Or.inl h2
              · exact Or.inr (List.mem_cons_of_mem _ h2)
      rcases hins acc h' with h2 | h2
      · exact Or.inr (h2 ▸ List.mem_cons_self _ _)
      · exact Or.inl h2
    · exact Or.inr (List.mem_cons_of_mem _ h')

theorem mem_zip_map {α β : Type} (l : List α) (f : α → β) (a : α) (b : β)
    (h : (a, b) ∈ l.zip (l.map f)) : b = f a := by
  induction l with
  | nil => cases h
  | cons x rest ih =>
    simp only [List.map_cons, List.zip_cons_cons, List.mem_cons] at h
    rcases h with h | h
    · cases h; rfl
    · exact ih h

theorem dbTransaction_error {σ : Type} (f : σ → σ × Option StorageError) (db : σ)
    (e : StorageError) (h : (dbTransaction f db).2 = some e) :
    (dbTransaction f db).1 = db := by
  unfold dbTransaction at h ⊢
  rcases hf : f db with ⟨db2, oe⟩
  rw [hf] at h
  cases oe with
  | none => exact Option.noConfusion h
  | some e2 => rfl

theorem dbTransaction_ok {σ : Type} (f : σ → σ × Option StorageError) (db : σ)
    (h : (dbTransaction f db).2 = none) : dbTransaction f db = f db := by
  unfold dbTransaction at h ⊢
  rcases hf : f db with ⟨db2, oe⟩
  rw [hf] at h
  cases oe with
  | none => rfl
  | some e2 => exact Option.noConfusion h

theorem dbTransactionV_error {σ V : Type} (f : σ → σ × Except StorageError V) (db : σ)
    (e : StorageError) (h : (dbTransactionV f db).2 = .error e) :
    (dbTransactionV f db).1 = db := by
  unfold dbTransactionV at h ⊢
  rcases hf : f db with ⟨db2, r⟩
  rw [hf] at h
  cases r with
  | ok v => exact Except.noConfusion h
  | error e2 => rfl

theorem dbTransactionV_ok {σ V : Type} (f : σ → σ × Except StorageError V) (db : σ)
    (v : V) (h : (dbTransactionV f db).2 = .ok v) : dbTransactionV f db = f db := by
  unfold dbTransactionV at h ⊢
  rcases hf : f db with ⟨db2, r⟩
  rw [hf] at h
  cases r with
  | ok v2 => rfl
  | error e2 => exact Except.noConfusion h

theorem trimComponentTokens_eq (c : ProtocolComponent) :
    (isPlainPoolVariant c →
      trimComponentTokens c = { c with tokens := c.tokens.filter (fun t => t ≠ 0) }) ∧
    (¬ isPlainPoolVariant c → trimComponentTokens c = c) := by
  constructor
  · rintro ⟨hf, hp⟩
    unfold trimComponentTokens
    simp [hf, hp]
  · intro hvar
    unfold trimComponentTokens
    unfold isPlainPoolVariant at hvar
    cases hf : alLookup "factory_name" c.static_attributes with
    | none => rfl
    | some fn =>
      by_cases hfe : fn = STABLE_SWAP_FACTORY
      · subst hfe
        simp only [if_pos rfl]
        cases hp : alLookup "pool_type" c.static_attributes with
        | none => rfl
        | some pt =>
          by_cases hpe : pt = PLAIN_POOL
          · exact absurd ⟨hf, hpe ▸ hp⟩ hvar
          · simp [hpe]
      · simp [hfe]

/-! ## Claim theorems -/

/-- Claim C7: version parsing follows the precedence: a present `block` wins
over the timestamp, and within the block a present `hash` wins over
`(chain, number)`; otherwise a present timestamp is used; with both absent
the parse fails with `Parse "Missing timestamp or block identifier"`. -/
theorem version_param_parse_precedence (v : VersionParam) :
    (∀ b h, v.block = some b → b.hash = some h →
      BlockOrTimestamp.try_from_version v = .ok (.Block (.Hash h))) ∧
    (∀ b c n, v.block = some b → b.hash = none → b.chain = some c → b.number = some n →
      BlockOrTimestamp.try_from_version v = .ok (.Block (.Number c n))) ∧
    (∀ t, v.block = none → v.timestamp = some t →
      BlockOrTimestamp.try_from_version v = .ok (.Timestamp t)) ∧
    (v.block = none → v.timestamp = none →
      BlockOrTimestamp.try_from_version v
        = .error (.Parse "Missing timestamp or block identifier")) := by
  obtain ⟨ts, blk⟩ := v
  refine ⟨?_, ?_, ?_, ?_⟩
  · intro b h hb hh
    cases hb
    cases ts <;> simp [BlockOrTimestamp.try_from_version, hh]
  · intro b c n hb hh hc hn
    cases hb
    cases ts <;> simp [BlockOrTimestamp.try_from_version, hh, hc, hn]
  · intro t hb ht
    cases hb
    cases ht
    simp [BlockOrTimestamp.try_from_version]
  · intro hb ht
    cases hb
    cases ht
    simp [BlockOrTimestamp.try_from_version]

/-- Witness for C7 at concrete version parameters (block with hash, block
with chain and number, timestamp only, nothing). -/
theorem version_param_parse_precedence_witness :
    BlockOrTimestamp.try_from_version
        { timestamp := some 5
          block := some { hash := some [1, 2], chain := some .Ethereum, number := some 7 } }
      = .ok (.Block (.Hash [1, 2])) ∧
    BlockOrTimestamp.try_from_version
        { timestamp := some 5
          block := some { hash := none, chain := some .Ethereum, number := some 7 } }
      = .ok (.Block (.Number .Ethereum 7)) ∧
    BlockOrTimestamp.try_from_version { timestamp := some 5, block := none }
      = .ok (.Timestamp 5) ∧
    BlockOrTimestamp.try_from_version { timestamp := none, block := none }
      = .error (.Parse "Missing timestamp or block identifier") :=
  ⟨(version_param_parse_precedence _).1 _ _ rfl rfl,
   (version_param_parse_precedence _).2.1 _ _ _ rfl rfl rfl rfl,
   (version_param_parse_precedence _).2.2.1 _ rfl rfl,
   (version_param_parse_precedence _).2.2.2 rfl rfl⟩

/-- Claim C10: whenever `AccountUpdateWithTx::merge` succeeds, the resulting
update carries the merged-in (later) update's transaction, so a per-block
aggregated update carries the account's last modifying transaction. -/
theorem merge_keeps_other_transaction (self other merged : AccountUpdateWithTx)
    (h : AccountUpdateWithTx.merge self other = (merged, none)) :
    merged.tx = other.tx :=
  (merge_ok_fields self other merged h).2.2.2.2.2

/-- Witness for C10: a concrete successful merge keeps the later
transaction. -/
theorem merge_keeps_other_transaction_witness :
    ({ update := { address := 7, chain := .Ethereum, slots := [],
                   balance := none, code := none, change := .Update }
       tx := { hash := 2, block_hash := 0, sender := 0, recipient := none,
               index := 2 } } : AccountUpdateWithTx).tx
      = ({ hash := 2, block_hash := 0, sender := 0, recipient := none,
           index := 2 } : Transaction) :=
  merge_keeps_other_transaction
    { update := { address := 7, chain := .Ethereum, slots := [],
                  balance := none, code := none, change := .Update }
      tx := { hash := 1, block_hash := 0, sender := 0, recipient := none, index := 1 } }
    { update := { address := 7, chain := .Ethereum, slots := [],
                  balance := none, code := none, change := .Update }
      tx := { hash := 2, block_hash := 0, sender := 0, recipient := none, index := 2 } }
    _ (by decide)

/-- Claim C3 counterexample: two same-account updates from the same block
with distinct transaction hashes but equal transaction indices merge
successfully, although the claim allows success only for a strictly greater
index. -/
theorem merge_equal_index_counterexample :
    (AccountUpdateWithTx.merge
        { update := { address := 7, chain := .Ethereum, slots := [],
                      balance := none, code := none, change := .Update }
          tx := { hash := 1, block_hash := 0, sender := 0, recipient := none, index := 5 } }
        { update := { address := 7, chain := .Ethereum, slots := [],
                      balance := none, code := none, change := .Update }
          tx := { hash := 2, block_hash := 0, sender := 0, recipient := none,
                  index := 5 } }).2
      = none ∧ ¬ (5 : Nat) < 5 := by
  decide

/-- Claim C3 (amended): for same-account updates the merge succeeds exactly
when the block hashes agree, the transaction hashes differ and the merged-in
transaction's index is at least (not strictly greater than) the callee's;
every violation returns `ExtractionError::Unknown` and leaves `self`
unchanged. -/
theorem merge_conditions_amended (self other : AccountUpdateWithTx)
    (haddr : self.update.address = other.update.address) :
    ((AccountUpdateWithTx.merge self other).2 = none ↔
      (self.tx.block_hash = other.tx.block_hash ∧ self.tx.hash ≠ other.tx.hash ∧
        self.tx.index ≤ other.tx.index)) ∧
    (∀ e, (AccountUpdateWithTx.merge self other).2 = some e →
      (∃ msg, e = ExtractionError.Unknown msg) ∧
      (AccountUpdateWithTx.merge self other).1 = self) := by
  unfold AccountUpdateWithTx.merge
  split_ifs with h1 h2 h3
  · refine ⟨by simp [h1], ?_⟩
    intro e he
    simp only at he
    cases he
    exact ⟨⟨_, rfl⟩, rfl⟩
  · refine ⟨by simp [h2], ?_⟩
    intro e he
    simp only at he
    cases he
    exact ⟨⟨_, rfl⟩, rfl⟩
  · refine ⟨by simp [Nat.not_le.mpr h3], ?_⟩
    intro e he
    simp only at he
    cases he
    exact ⟨⟨_, rfl⟩, rfl⟩
  · have hbh : self.tx.block_hash = other.tx.block_hash := by
      by_contra hc
      exact h1 hc
    have hle : self.tx.index ≤ other.tx.index := Nat.not_lt.mp h3
    have haddr' : ¬ self.update.address ≠ other.update.address := by
      simp [haddr]
    unfold AccountUpdate.merge
    rw [if_neg haddr']
    exact ⟨by simp [hbh, h2, hle], by intro e he; simp at he⟩

/-- Witness for C3 (amended) at concrete same-account updates with strictly
increasing transaction indices. -/
theorem merge_conditions_amended_witness :
    ((AccountUpdateWithTx.merge
        { update := { address := 7, chain := .Ethereum, slots := [],
                      balance := none, code := none, change := .Update }
          tx := { hash := 1, block_hash := 0, sender := 0, recipient := none, index := 1 } }
        { update := { address := 7, chain := .Ethereum, slots := [],
                      balance := none, code := none, change := .Update }
          tx := { hash := 2, block_hash := 0, sender := 0, recipient := none,
                  index := 2 } }).2 = none ↔
      ((0 : H256) = 0 ∧ (1 : H256) ≠ 2 ∧ (1 : Nat) ≤ 2)) ∧
    (∀ e, (AccountUpdateWithTx.merge
        { update := { address := 7, chain := .Ethereum, slots := [],
                      balance := none, code := none, change := .Update }
          tx := { hash := 1, block_hash := 0, sender := 0, recipient := none, index := 1 } }
        { update := { address := 7, chain := .Ethereum, slots := [],
                      balance := none, code := none, change := .Update }
          tx := { hash := 2, block_hash := 0, sender := 0, recipient := none,
                  index := 2 } }).2 = some e →
      (∃ msg, e = ExtractionError.Unknown msg) ∧
      (AccountUpdateWithTx.merge
        { update := { address := 7, chain := .Ethereum, slots := [],
                      balance := none, code := none, change := .Update }
          tx := { hash := 1, block_hash := 0, sender := 0, recipient := none, index := 1 } }
        { update := { address := 7, chain := .Ethereum, slots := [],
                      balance := none, code := none, change := .Update }
          tx := { hash := 2, block_hash := 0, sender := 0, recipient := none,
                  index := 2 } }).1
        = { update := { address := 7, chain := .Ethereum, slots := [],
                        balance := none, code := none, change := .Update }
            tx := { hash := 1, block_hash := 0, sender := 0, recipient := none,
                    index := 1 } }) :=
  merge_conditions_amended _ _ rfl

/-- Claim C6 counterexample: a request whose version has neither a block nor
a timestamp makes the handler's inner call fail with a `Parse` error, and
the `contract_state` handler answers 500, not 400. -/
theorem parse_error_gets_500_counterexample :
    RpcHandler.get_contract_state_inner (.ok [])
        { contract_ids := none, version := { timestamp := none, block := none } }
      = .error (.Parse "Missing timestamp or block identifier") ∧
    contract_state (.ok [])
        { contract_ids := none, version := { timestamp := none, block := none } } = 500 ∧
    (500 : Nat) ≠ 400 := by
  refine ⟨rfl, rfl, by decide⟩

/-- Claim C6 (amended): the `contract_state`, `tokens` and
`protocol_components` handlers answer 500 on every error — storage errors
and request-parse errors alike — and 200 only when parsing and storage both
succeed. -/
theorem rpc_handlers_map_every_error_to_500
    (storageResult : Except StorageError (List Account)) (body : StateRequestBody)
    (tokensResult : Except StorageError (List ERC20Token))
    (componentsResult : Except StorageError (List ProtocolComponent)) :
    (∀ e, storageResult = .error e → contract_state storageResult body = 500) ∧
    (∀ e, BlockOrTimestamp.try_from_version body.version = .error e →
      contract_state storageResult body = 500) ∧
    (∀ accounts v, storageResult = .ok accounts →
      BlockOrTimestamp.try_from_version body.version = .ok v →
      contract_state storageResult body = 200) ∧
    (∀ e, tokensResult = .error e → tokens tokensResult = 500) ∧
    (∀ e, componentsResult = .error e → protocol_components componentsResult = 500) := by
  refine ⟨?_, ?_, ?_, ?_, ?_⟩
  · intro e he
    subst he
    unfold contract_state RpcHandler.get_contract_state_inner
    cases hv : BlockOrTimestamp.try_from_version body.version <;> simp [hv]
  · intro e he
    unfold contract_state RpcHandler.get_contract_state_inner
    simp [he]
  · intro accounts v ha hv
    subst ha
    unfold contract_state RpcHandler.get_contract_state_inner
    simp [hv]
  · intro e he
    subst he
    unfold tokens RpcHandler.get_tokens_inner
    simp
  · intro e he
    subst he
    unfold protocol_components RpcHandler.get_protocol_components_inner
    simp

/-- Witness for C6 (amended) at a concrete storage error, a concrete parse
failure, a concrete success, and concrete tokens / components errors. -/
theorem rpc_handlers_map_every_error_to_500_witness :
    contract_state (.error (.Unexpected "boom"))
        { contract_ids := none, version := { timestamp := some 3, block := none } } = 500 ∧
    contract_state (.ok [])
        { contract_ids := none, version := { timestamp := none, block := none } } = 500 ∧
    contract_state (.ok [])
        { contract_ids := none, version := { timestamp := some 3, block := none } } = 200 ∧
    tokens (.error (.Unexpected "boom")) = 500 ∧
    protocol_components (.error (.Unexpected "boom")) = 500 :=
  ⟨(rpc_handlers_map_every_error_to_500 _
      { contract_ids := none, version := { timestamp := some 3, block := none } }
      (.ok []) (.ok [])).1 _ rfl,
   (rpc_handlers_map_every_error_to_500 (.ok [])
      { contract_ids := none, version := { timestamp := none, block := none } }
      (.ok []) (.ok [])).2.1 _ rfl,
   (rpc_handlers_map_every_error_to_500 (.ok [])
      { contract_ids := none, version := { timestamp := some 3, block := none } }
      (.ok []) (.ok [])).2.2.1 [] (.Timestamp 3) rfl rfl,
   (rpc_handlers_map_every_error_to_500 (.ok [])
      { contract_ids := none, version := { timestamp := some 3, block := none } }
      _ (.ok [])).2.2.2.1 _ rfl,
   (rpc_handlers_map_every_error_to_500 (.ok [])
      { contract_ids := none, version := { timestamp := some 3, block := none } }
      (.ok []) _).2.2.2.2 _ rfl⟩

/-- Claim C5 counterexample: after two subscriptions and one removal the
next subscriber id (the table's size, 1) repeats an already assigned id and
its insertion overwrites the still-live entry of subscriber 11. -/
theorem subscribe_id_reuse_counterexample :
    applySubscriptionOps
        [SubscriptionOp.subscribeOp 10, SubscriptionOp.subscribeOp 11,
         SubscriptionOp.removeOp 0, SubscriptionOp.subscribeOp 12] []
      = [(1, 12)] ∧
    applySubscriptionOps
        [SubscriptionOp.subscribeOp 10, SubscriptionOp.subscribeOp 11] []
      = [(0, 10), (1, 11)] := by
  decide

/-- Claim C5 (amended): each `Subscribe` registers the sender under an id
equal to the current table size, so a removal-free sequence of `n`
subscriptions from the empty table assigns the strictly increasing ids
`0, …, n−1`, never deduplicates, and ends with `n` distinct live entries;
after a removal the size-based id can repeat an earlier id and overwrite a
live entry (see the counterexample). -/
theorem subscribe_ids_sequential (senders : List Nat) :
    applySubscriptionOps (senders.map SubscriptionOp.subscribeOp) []
      = (List.range senders.length).zip senders := by
  suffices hgen : ∀ pre : List (Nat × Nat), pre.map Prod.fst = List.range pre.length →
      applySubscriptionOps (senders.map SubscriptionOp.subscribeOp) pre
        = pre ++ (List.range' pre.length senders.length).zip senders by
    have h := hgen [] (by simp)
    simpa [List.range_eq_range'] using h
  induction senders with
  | nil =>
    intro pre hpre
    simp [applySubscriptionOps]
  | cons s rest ih =>
    intro pre hpre
    have hnotmem : pre.length ∉ pre.map Prod.fst := by
      rw [hpre]
      simp
    have hsub : ExtractorRunner.subscribe pre s = pre ++ [(pre.length, s)] :=
      alInsert_not_mem _ _ _ hnotmem
    simp only [List.map_cons, applySubscriptionOps, hsub]
    have hpre' : (pre ++ [(pre.length, s)]).map Prod.fst
        = List.range (pre ++ [(pre.length, s)]).length := by
      simp [hpre, List.range_succ]
    rw [ih _ hpre']
    simp [List.range'_succ, List.append_assoc]

/-- Claim C8 counterexample: a plain-pool component whose token list starts
with a zero entry followed by a non-zero one has no trailing zeros, yet the
post-processor removes the leading zero as well: the result is `[5]` where
trailing-only trimming keeps `[0, 5]`. -/
theorem trim_curve_trailing_counterexample :
    ((trim_curve_component_token
        { extractor := "test", chain := .Ethereum
          block := { number := 0, hash := 0, parent_hash := 0, chain := .Ethereum, ts := 0 }
          finalized_block_height := 0, revert := false
          tx_updates :=
            [{ account_updates := []
               protocol_components :=
                 [("p", { id := "p", protocol_system := "curve"
                          protocol_type_name := "Pool", chain := .Ethereum
                          tokens := [0, 5], contract_ids := []
                          static_attributes :=
                            [("factory_name", STABLE_SWAP_FACTORY),
                             ("pool_type", PLAIN_POOL)]
                          creation_tx := 0, created_at := 0, change := .Creation })]
               tx := { hash := 0, block_hash := 0, sender := 0, recipient := none,
                       index := 0 } }] }).tx_updates.map
        (fun t => t.protocol_components.map (fun p => p.2.tokens))) = [[[5]]] ∧
    trimTrailingZeroTokens [0, 5] = [0, 5] ∧
    ([5] : List H160) ≠ [0, 5] := by
  refine ⟨by decide, by decide, by decide⟩

/-- Claim C8 (amended): for components marked as the stable-swap-factory
plain-pool variant the post-processor removes ALL zero token entries
(leading, middle and trailing alike), keeping the relative order of the
remaining tokens; components not so marked, every other field of every
transaction group, and the block-level fields are unchanged. -/
theorem trim_curve_removes_all_zero_tokens (changes : BlockContractChanges) :
    (trim_curve_component_token changes).extractor = changes.extractor ∧
    (trim_curve_component_token changes).chain = changes.chain ∧
    (trim_curve_component_token changes).block = changes.block ∧
    (trim_curve_component_token changes).finalized_block_height
      = changes.finalized_block_height ∧
    (trim_curve_component_token changes).revert = changes.revert ∧
    (trim_curve_component_token changes).tx_updates.length
      = changes.tx_updates.length ∧
    (∀ txOld txNew,
      (txOld, txNew)
          ∈ changes.tx_updates.zip (trim_curve_component_token changes).tx_updates →
      txNew.account_updates = txOld.account_updates ∧ txNew.tx = txOld.tx ∧
      txNew.protocol_components.length = txOld.protocol_components.length ∧
      (∀ pOld pNew,
        (pOld, pNew) ∈ txOld.protocol_components.zip txNew.protocol_components →
        pNew.1 = pOld.1 ∧
        (isPlainPoolVariant pOld.2 →
          pNew.2 = { pOld.2 with tokens := pOld.2.tokens.filter (fun t => t ≠ 0) }) ∧
        (¬ isPlainPoolVariant pOld.2 → pNew.2 = pOld.2))) := by
  refine ⟨rfl, rfl, rfl, rfl, rfl, by simp [trim_curve_component_token], ?_⟩
  intro txOld txNew hmem
  have hmem' : (txOld, txNew) ∈ changes.tx_updates.zip
      (changes.tx_updates.map (fun txu =>
        { txu with protocol_components :=
            txu.protocol_components.map (fun p => (p.1, trimComponentTokens p.2)) })) :=
    hmem
  have htx := mem_zip_map _ _ _ _ hmem'
  subst htx
  refine ⟨rfl, rfl, by simp, ?_⟩
  intro pOld pNew hpmem
  have hpmem' : (pOld, pNew) ∈ txOld.protocol_components.zip
      (txOld.protocol_components.map (fun p => (p.1, trimComponentTokens p.2))) := hpmem
  have hp := mem_zip_map _ _ _ _ hpmem'
  subst hp
  exact ⟨rfl, fun hvar => (trimComponentTokens_eq pOld.2).1 hvar,
    fun hvar => (trimComponentTokens_eq pOld.2).2 hvar⟩

/-- Witness for C8 (amended) at the concrete curve block: the plain-pool
variant loses every zero token, the other component is unchanged. -/
theorem trim_curve_removes_all_zero_tokens_witness :
    (trim_curve_component_token curveChangesW).tx_updates.length
      = curveChangesW.tx_updates.length ∧
    ("pool1", ({ curveVariantComponent with tokens := [5] } : ProtocolComponent)).2
      = { curveVariantComponent with
            tokens := curveVariantComponent.tokens.filter (fun t => t ≠ 0) } ∧
    ("pool2", curveOtherComponent).2 = curveOtherComponent := by
  have h := (trim_curve_removes_all_zero_tokens curveChangesW).2.2.2.2.2.2
    curveTxUpdatesW curveTrimmedTxUpdatesW (by decide)
  exact ⟨(trim_curve_removes_all_zero_tokens curveChangesW).2.2.2.2.2.1,
    (h.2.2.2 ("pool1", curveVariantComponent)
        ("pool1", { curveVariantComponent with tokens := [5] }) (by decide)).2.1
      (by decide),
    (h.2.2.2 ("pool2", curveOtherComponent) ("pool2", curveOtherComponent)
        (by decide)).2.2 (by decide)⟩

/-- Claim C2: an upstream message whose block payload is empty advances the
in-memory cursor to the message's cursor, performs no store write (the
database is returned untouched, for every gateway interpretation) and emits
nothing (`Ok None`); a payload that parses, persists and aggregates
successfully is persisted and the aggregated message is returned with the
advanced cursor. -/
theorem empty_and_full_block_handling {σ : Type} (g : EVMStateGateway σ)
    (name : String) (chain : Chain) (db : σ) (cursor : String)
    (inp : BlockScopedData) :
    (inp.msg.block = none →
      AmbientContractExtractor.handle_tick_scoped_data g name chain db cursor inp
        = { result := .ok none, db := db, cursor := inp.cursor }) ∧
    (∀ msg agg,
      BlockStateChanges.try_from_message inp.msg name chain = .ok msg →
      (AmbientPgGateway.upsert_contract g name chain msg inp.cursor db).2 = none →
      msg.aggregate_updates = .ok agg →
      AmbientContractExtractor.handle_tick_scoped_data g name chain db cursor inp
        = { result := .ok (some agg)
            db := (AmbientPgGateway.upsert_contract g name chain msg inp.cursor db).1
            cursor := inp.cursor }) := by
  constructor
  · intro hb
    have hmsg : BlockStateChanges.try_from_message inp.msg name chain
        = .error .Empty := by
      unfold BlockStateChanges.try_from_message
      rw [hb]
    unfold AmbientContractExtractor.handle_tick_scoped_data
    rw [hmsg]
  · intro msg agg hmsg hup hagg
    unfold AmbientContractExtractor.handle_tick_scoped_data
    rw [hmsg]
    rcases hupd : AmbientPgGateway.upsert_contract g name chain msg inp.cursor db
      with ⟨db2, oe⟩
    rw [hupd] at hup
    cases oe with
    | some e => exact Option.noConfusion hup
    | none => simp [hupd, hagg]

/-- Witness for C2: an envelope with an empty payload leaves the counter
database untouched (no write) and advances the cursor, a one-block payload
without updates is persisted and aggregated. -/
theorem empty_and_full_block_handling_witness :
    AmbientContractExtractor.handle_tick_scoped_data testGateway "x" .Ethereum
        (0 : Nat) "old" { msg := { block := none, changes := [] }, cursor := "c1" }
      = { result := .ok none, db := 0, cursor := "c1" } ∧
    AmbientContractExtractor.handle_tick_scoped_data testGateway "x" .Ethereum
        (0 : Nat) "old" inpFullW
      = { result := .ok (some (BlockAccountChanges.new "x" .Ethereum
            { number := 1, hash := 1, parent_hash := 2, chain := .Ethereum, ts := 1000 } []))
          db := (AmbientPgGateway.upsert_contract testGateway "x" .Ethereum msgW "c2" 0).1
          cursor := "c2" } :=
  ⟨(empty_and_full_block_handling testGateway "x" .Ethereum 0 "old"
      { msg := { block := none, changes := [] }, cursor := "c1" }).1 rfl,
   (empty_and_full_block_handling testGateway "x" .Ethereum 0 "old" inpFullW).2
     msgW
     (BlockAccountChanges.new "x" .Ethereum
       { number := 1, hash := 1, parent_hash := 2, chain := .Ethereum, ts := 1000 } [])
     (by simp [inpFullW, BlockStateChanges.try_from_message, Block.try_from_message,
          pad_and_parse_32bytes, bytesToNat, naiveDateTimeFromTimestamp, msgW,
          List.mergeSort_nil, bind, Except.bind, pure, Except.pure, List.mapM,
          List.mapM.loop])
     (by decide)
     (by simp [msgW, BlockStateChanges.aggregate_updates, List.foldlM, bind,
          Except.bind, pure, Except.pure, BlockAccountChanges.new])⟩

/-- Claim C1: the forward persistence (`forward`, i.e. the contract changes
together with the cursor save) and the backward persistence (`backward`,
i.e. the revert together with the cursor save) each run inside a single
database transaction — on error the database is rolled back unchanged, on
success the whole sequence's effects commit; and when the persistence call
fails, `handle_tick_scoped_data` / `handle_revert` propagate the error and
the in-memory cursor keeps its previous value. -/
theorem single_transaction_and_cursor_on_error {σ : Type} (g : EVMStateGateway σ)
    (name : String) (chain : Chain) (db : σ) (cursor : String) :
    (∀ changes newCursor e,
      (AmbientPgGateway.upsert_contract g name chain changes newCursor db).2 = some e →
      (AmbientPgGateway.upsert_contract g name chain changes newCursor db).1 = db) ∧
    (∀ changes newCursor,
      (AmbientPgGateway.upsert_contract g name chain changes newCursor db).2 = none →
      AmbientPgGateway.upsert_contract g name chain changes newCursor db
        = AmbientPgGateway.forward g name chain changes newCursor db) ∧
    (∀ targetBlock newCursor e,
      (AmbientPgGateway.revert g name chain targetBlock newCursor db).2 = .error e →
      (AmbientPgGateway.revert g name chain targetBlock newCursor db).1 = db) ∧
    (∀ targetBlock newCursor v,
      (AmbientPgGateway.revert g name chain targetBlock newCursor db).2 = .ok v →
      AmbientPgGateway.revert g name chain targetBlock newCursor db
        = AmbientPgGateway.backward g name chain targetBlock newCursor db) ∧
    (∀ (inp : BlockScopedData) msg e,
      BlockStateChanges.try_from_message inp.msg name chain = .ok msg →
      (AmbientPgGateway.upsert_contract g name chain msg inp.cursor db).2 = some e →
      (AmbientContractExtractor.handle_tick_scoped_data g name chain db cursor inp).result
          = .error (.Storage e) ∧
      (AmbientContractExtractor.handle_tick_scoped_data g name chain db cursor inp).cursor
          = cursor) ∧
    (∀ (inp : BlockUndoSignal) blockRef h e,
      inp.last_valid_block = some blockRef →
      parseH256Hex blockRef.id = some h →
      (AmbientPgGateway.revert g name chain (BlockIdentifier.Hash (natToBytesBE 32 h))
          inp.last_valid_cursor db).2 = .error e →
      (AmbientContractExtractor.handle_revert g name chain db cursor inp).result
          = .error (.Storage e) ∧
      (AmbientContractExtractor.handle_revert g name chain db cursor inp).cursor
          = cursor) := by
  refine ⟨?_, ?_, ?_, ?_, ?_, ?_⟩
  · intro changes newCursor e he
    exact dbTransaction_error _ _ e he
  · intro changes newCursor hok
    exact dbTransaction_ok _ _ hok
  · intro targetBlock newCursor e he
    exact dbTransactionV_error _ _ e he
  · intro targetBlock newCursor v hok
    exact dbTransactionV_ok _ _ v hok
  · intro inp msg e hmsg hup
    unfold AmbientContractExtractor.handle_tick_scoped_data
    rw [hmsg]
    rcases hupd : AmbientPgGateway.upsert_contract g name chain msg inp.cursor db
      with ⟨db2, oe⟩
    rw [hupd] at hup
    cases oe with
    | some e2 =>
      cases hup
      simp [hupd]
    | none => exact Option.noConfusion hup
  · intro inp blockRef h e hlvb hparse hrev
    unfold AmbientContractExtractor.handle_revert
    rw [hlvb]
    rcases hrevd : AmbientPgGateway.revert g name chain
        (BlockIdentifier.Hash (natToBytesBE 32 h)) inp.last_valid_cursor db
      with ⟨db2, r⟩
    rw [hrevd] at hrev
    cases r with
    | ok v => exact Except.noConfusion hrev
    | error e2 =>
      cases hrev
      simp [hparse, hrevd]

/-- Witness for C1 on the counter database: with a failing batched update
the whole forward transaction rolls back and the handler keeps the cursor;
with the successful gateway the committed transaction equals the full
forward sequence; same for the backward path. -/
theorem single_transaction_and_cursor_on_error_witness :
    (AmbientPgGateway.upsert_contract failingGateway "x" .Ethereum msgW "c2" 0).1 = 0 ∧
    AmbientPgGateway.upsert_contract testGateway "x" .Ethereum msgW "c2" 0
      = AmbientPgGateway.forward testGateway "x" .Ethereum msgW "c2" 0 ∧
    (AmbientPgGateway.revert failingGateway "x" .Ethereum
        (BlockIdentifier.Hash (natToBytesBE 32 0)) "c0" 0).1 = 0 ∧
    AmbientPgGateway.revert testGateway "x" .Ethereum
        (BlockIdentifier.Hash (natToBytesBE 32 0)) "c0" 0
      = AmbientPgGateway.backward testGateway "x" .Ethereum
          (BlockIdentifier.Hash (natToBytesBE 32 0)) "c0" 0 ∧
    ((AmbientContractExtractor.handle_tick_scoped_data failingGateway "x" .Ethereum
        (0 : Nat) "old" inpFullW).result
      = .error (.Storage (.Unexpected "boom")) ∧
     (AmbientContractExtractor.handle_tick_scoped_data failingGateway "x" .Ethereum
        (0 : Nat) "old" inpFullW).cursor = "old") ∧
    ((AmbientContractExtractor.handle_revert failingGateway "x" .Ethereum
        (0 : Nat) "old" inpRevW).result
      = .error (.Storage (.Unexpected "boom")) ∧
     (AmbientContractExtractor.handle_revert failingGateway "x" .Ethereum
        (0 : Nat) "old" inpRevW).cursor = "old") :=
  ⟨(single_transaction_and_cursor_on_error failingGateway "x" .Ethereum 0 "old").1
     msgW "c2" (.Unexpected "boom") (by decide),
   (single_transaction_and_cursor_on_error testGateway "x" .Ethereum 0 "old").2.1
     msgW "c2" (by decide),
   (single_transaction_and_cursor_on_error failingGateway "x" .Ethereum 0 "old").2.2.1
     (BlockIdentifier.Hash (natToBytesBE 32 0)) "c0" (.Unexpected "boom") (by decide),
   (single_transaction_and_cursor_on_error testGateway "x" .Ethereum 0 "old").2.2.2.1
     (BlockIdentifier.Hash (natToBytesBE 32 0)) "c0" revChangesW (by decide),
   (single_transaction_and_cursor_on_error failingGateway "x" .Ethereum 0 "old").2.2.2.2.1
     inpFullW msgW (.Unexpected "boom")
     (by simp [inpFullW, BlockStateChanges.try_from_message, Block.try_from_message,
          pad_and_parse_32bytes, bytesToNat, naiveDateTimeFromTimestamp, msgW,
          List.mergeSort_nil, bind, Except.bind, pure, Except.pure, List.mapM,
          List.mapM.loop])
     (by decide),
   (single_transaction_and_cursor_on_error failingGateway "x" .Ethereum 0 "old").2.2.2.2.2
     inpRevW
     { id := "0000000000000000000000000000000000000000000000000000000000000000"
       number := 4 }
     0 (.Unexpected "boom") rfl (by decide) (by decide)⟩

/-- Claim C9: the revert message assembled by `backward` carries account
updates only for the hard-coded ambient contract address — every delta the
store computes for another account is dropped — and `handle_revert` emits a
message exactly when the filtered update set is non-empty. -/
theorem ambient_revert_filters_to_ambient {σ : Type} (g : EVMStateGateway σ)
    (name : String) (chain : Chain) (targetBlock : BlockIdentifier)
    (newCursor cursor : String) (db : σ) (deltas : List AccountUpdate)
    (hdeltas : g.get_account_delta chain none (BlockOrTimestamp.Block targetBlock) db
        = .ok deltas) :
    (∀ db2 changes,
      AmbientPgGateway.backward g name chain targetBlock newCursor db
          = (db2, .ok changes) →
      (∀ p ∈ changes.account_updates,
        p.1 = AMBIENT_CONTRACT ∧ p.2 ∈ deltas ∧ p.2.address = AMBIENT_CONTRACT) ∧
      ((∀ u ∈ deltas, u.address ≠ AMBIENT_CONTRACT) → changes.account_updates = [])) ∧
    (∀ (inp : BlockUndoSignal) blockRef h db2 changes,
      inp.last_valid_block = some blockRef →
      parseH256Hex blockRef.id = some h →
      AmbientPgGateway.revert g name chain (BlockIdentifier.Hash (natToBytesBE 32 h))
          inp.last_valid_cursor db = (db2, .ok changes) →
      ((changes.account_updates = [] →
        (AmbientContractExtractor.handle_revert g name chain db cursor inp).result
          = .ok none) ∧
       (changes.account_updates ≠ [] →
        (AmbientContractExtractor.handle_revert g name chain db cursor inp).result
          = .ok (some changes)))) := by
  constructor
  · intro db2 changes hback
    unfold AmbientPgGateway.backward at hback
    split at hback
    · simp at hback
    · rename_i block hgb
      split at hback
      · simp at hback
      · rename_i deltas2 hdeltas2
        have hdd : deltas = deltas2 := by
          rw [hdeltas] at hdeltas2
          cases hdeltas2
          rfl
        subst hdd
        split at hback
        · simp at hback
        · split at hback
          · simp at hback
          · simp only [Prod.mk.injEq, Except.ok.injEq] at hback
            obtain ⟨-, hch⟩ := hback
            subst hch
            constructor
            · intro p hp
              have hp2 := mem_collectMap _ _ hp
              rw [List.mem_filterMap] at hp2
              obtain ⟨u, hu, hfu⟩ := hp2
              by_cases ha : u.address = AMBIENT_CONTRACT
              · rw [if_pos ha] at hfu
                cases hfu
                exact ⟨ha, hu, ha⟩
              · rw [if_neg ha] at hfu
                cases hfu
            · intro hnone
              have hfm : deltas.filterMap (fun u =>
                  if u.address = AMBIENT_CONTRACT then some (u.address, u) else none)
                  = [] := by
                rw [List.filterMap_eq_nil_iff]
                intro u hu
                rw [if_neg (hnone u hu)]
              simp [BlockAccountChanges.new, hfm, collectMap]
  · intro inp blockRef h db2 changes hlvb hparse hrev
    unfold AmbientContractExtractor.handle_revert
    rw [hlvb]
    constructor
    · intro hempty
      simp [hparse, hrev, hempty]
    · intro hnonempty
      have hne : changes.account_updates.isEmpty = false := by
        cases hc : changes.account_updates with
        | nil => exact absurd hc hnonempty
        | cons a l => rfl
      simp [hparse, hrev, hne]

/-- Witness for C9 on the counter database: of the two deltas the store
returns, only the ambient contract's survives into the revert message, and
`handle_revert` emits the message since the set is non-empty. -/
theorem ambient_revert_filters_to_ambient_witness :
    (AMBIENT_CONTRACT = AMBIENT_CONTRACT ∧
      ({ address := AMBIENT_CONTRACT, chain := .Ethereum, slots := [],
         balance := some 5, code := none, change := .Update } : AccountUpdate)
        ∈ [{ address := AMBIENT_CONTRACT, chain := .Ethereum, slots := [],
             balance := some 5, code := none, change := .Update },
           { address := 99, chain := .Ethereum, slots := [],
             balance := some 6, code := none, change := .Update }] ∧
      ({ address := AMBIENT_CONTRACT, chain := .Ethereum, slots := [],
         balance := some 5, code := none, change := .Update } : AccountUpdate).address
        = AMBIENT_CONTRACT) ∧
    (AmbientContractExtractor.handle_revert testGateway "x" .Ethereum (0 : Nat) "old"
        inpRevW).result = .ok (some revChangesW) := by
  have hmain := ambient_revert_filters_to_ambient testGateway "x" .Ethereum
    (BlockIdentifier.Hash (natToBytesBE 32 0)) "c0" "old" 0
    [{ address := AMBIENT_CONTRACT, chain := .Ethereum, slots := [],
       balance := some 5, code := none, change := .Update },
     { address := 99, chain := .Ethereum, slots := [],
       balance := some 6, code := none, change := .Update }]
    rfl
  refine ⟨?_, ?_⟩
  · exact (hmain.1 2 revChangesW (by decide)).1
      (AMBIENT_CONTRACT,
        { address := AMBIENT_CONTRACT, chain := .Ethereum, slots := [],
          balance := some 5, code := none, change := .Update }) (by decide)
  · exact (hmain.2 inpRevW
      { id := "0000000000000000000000000000000000000000000000000000000000000000"
        number := 4 }
      0 2 revChangesW rfl (by decide) (by decide)).2 (by decide)

/-- Claim C4: when per-transaction updates for one address, in ascending
transaction-index order, are folded into a single per-block update, every
slot key takes the value of the latest update writing it (earlier-only keys
keep their values), balance and code are the latest non-null values with
fallback to earlier ones, and the change type is the earliest update's. -/
theorem aggregate_updates_fold_rule (msg : BlockStateChanges) (a : H160)
    (bac : BlockAccountChanges)
    (hne : msg.tx_updates ≠ [])
    (haddr : ∀ u ∈ msg.tx_updates, u.update.address = a)
    (hnodup : ∀ u ∈ msg.tx_updates, (u.update.slots.map Prod.fst).Nodup)
    (_hsorted : msg.tx_updates.Pairwise (fun x y => x.tx.index ≤ y.tx.index))
    (hok : msg.aggregate_updates = .ok bac) :
    ∃ u, alLookup a bac.account_updates = some u ∧
      (∀ k, alLookup k u.slots = latestSlotValue msg.tx_updates k) ∧
      u.balance = latestBalance msg.tx_updates ∧
      u.code = latestCode msg.tx_updates ∧
      (∀ first rest, msg.tx_updates = first :: rest →
        u.change = first.update.change) := by
  rcases hus : msg.tx_updates with _ | ⟨h0, rest⟩
  · exact absurd hus hne
  · have haddr0 : h0.update.address = a := by
      refine haddr h0 ?_
      rw [hus]
      exact List.mem_cons_self _ _
    have haddrRest : ∀ u ∈ rest, u.update.address = a := by
      intro u hu
      refine haddr u ?_
      rw [hus]
      exact List.mem_cons_of_mem _ hu
    have hstep0 : aggStep [] h0 = .ok [(a, h0)] := by
      unfold aggStep
      simp [alLookup, alInsert, haddr0]
    have hfold := aggregate_single_address rest a h0 haddrRest haddr0
    unfold BlockStateChanges.aggregate_updates at hok
    rw [hus] at hok
    simp only [List.foldlM, hstep0] at hok
    have hbind : ((Except.ok [(a, h0)] : Except ExtractionError _) >>=
        fun s => rest.foldlM aggStep s) = rest.foldlM aggStep [(a, h0)] := rfl
    rw [hbind, hfold] at hok
    rcases hmc : mergeChain h0 rest with e | r
    · rw [hmc] at hok
      exact absurd hok (by simp [Except.map, bind, Except.bind])
    · rw [hmc] at hok
      simp only [Except.map, bind, Except.bind, pure, Except.pure,
        Except.ok.injEq] at hok
      have hprops := mergeChain_props rest h0 r hmc (by
        intro u hu
        refine hnodup u ?_
        rw [hus]
        exact List.mem_cons_of_mem _ hu)
      refine ⟨r.update, ?_, ?_, ?_, ?_, ?_⟩
      · rw [← hok]
        simp [BlockAccountChanges.new, alLookup]
      · intro k
        rw [hprops.1 k]
        rfl
      · rw [hprops.2.1]
        rfl
      · rw [hprops.2.2.1]
        rfl
      · intro first rest2 heq
        cases heq
        exact hprops.2.2.2.1

/-- Witness for C4 on two concrete same-account updates: the later slot
value wins for the twice-written key, earlier-only and later-only keys keep
their values, the balance falls back to the earlier non-null value, the code
takes the later non-null value, and the creation change type of the first
update is kept. -/
theorem aggregate_updates_fold_rule_witness :
    ∃ u, alLookup 7 bacAggW.account_updates = some u ∧
      (∀ k, alLookup k u.slots = latestSlotValue msgAggW.tx_updates k) ∧
      u.balance = latestBalance msgAggW.tx_updates ∧
      u.code = latestCode msgAggW.tx_updates ∧
      (∀ first rest, msgAggW.tx_updates = first :: rest →
        u.change = first.update.change) :=
  aggregate_updates_fold_rule msgAggW 7 bacAggW (by decide) (by decide) (by decide)
    (by decide) (by decide)

end Tycho
